import Mathlib

/-!
Verification of the `cloradar-tracker` tracking orchestrator
(`src/cloradar-tracker/src/tracker.rs`) against its specification.

The development shallowly embeds the tracker's data model and operations:

* the digest computer (`Repository::update_digest`, `Issue::update_digest`)
  is embedded down to the byte level: `bincode` v1 serialization (fixint,
  little-endian) of the digested field tuples, SHA-256, and lowercase hex
  encoding, all as executable functions on `Nat`-valued bytes;
* the issue reconciler (the two loops of `track_repository` and
  `find_issue`) is embedded as a function from the remote and local issue
  collections to the list of datastore write operations it issues, with the
  `expect("to be present")` panic of `find_issue` modelled as an error value;
* the sync unit `track_repository` is embedded as a function from the fetch
  outcome, local issue collection and repository record to the ordered list
  of datastore writes (or a failure / panic outcome);
* the scheduler `run` is embedded as a function of the configuration, the
  per-unit simulated outcomes (result plus duration, against the fixed
  300-second deadline) and the per-token rate-limit query outcomes,
  reproducing the error-aggregation fold and the `?`-propagation of
  rate-limit failures.

The datastore itself is an external collaborator of this crate (its access
layer is not part of the orchestrator source); where a claim needs its
semantics, the write operations are interpreted by functions explicitly
marked as modelled from the spec.
-/

namespace Clotributor

/-- Reduce a natural number to a 32-bit word. -/
def w32 (n : Nat) : Nat := n % 4294967296

/-- Rotate a 32-bit word right by `n` bits. -/
def rotr32 (x n : Nat) : Nat := w32 ((x >>> n) ||| (x <<< (32 - n)))

/-- Big-endian bytes of a 32-bit word. -/
def wordBE (w : Nat) : List Nat :=
  [w / 16777216 % 256, w / 65536 % 256, w / 256 % 256, w % 256]

/-- Big-endian bytes of a 64-bit word. -/
def be64 (n : Nat) : List Nat :=
  [n / 256 ^ 7 % 256, n / 256 ^ 6 % 256, n / 256 ^ 5 % 256, n / 256 ^ 4 % 256,
   n / 256 ^ 3 % 256, n / 256 ^ 2 % 256, n / 256 % 256, n % 256]

/-- SHA-256 round constants (FIPS 180-4 section 4.2.2, in decimal). -/
def sha256K : List Nat :=
  [1116352408, 1899447441, 3049323471, 3921009573,
   961987163, 1508970993, 2453635748, 2870763221,
   3624381080, 310598401, 607225278, 1426881987,
   1925078388, 2162078206, 2614888103, 3248222580,
   3835390401, 4022224774, 264347078, 604807628,
   770255983, 1249150122, 1555081692, 1996064986,
   2554220882, 2821834349, 2952996808, 3210313671,
   3336571891, 3584528711, 113926993, 338241895,
   666307205, 773529912, 1294757372, 1396182291,
   1695183700, 1986661051, 2177026350, 2456956037,
   2730485921, 2820302411, 3259730800, 3345764771,
   3516065817, 3600352804, 4094571909, 275423344,
   430227734, 506948616, 659060556, 883997877,
   958139571, 1322822218, 1537002063, 1747873779,
   1955562222, 2024104815, 2227730452, 2361852424,
   2428436474, 2756734187, 3204031479, 3329325298]

/-- Working state of the SHA-256 compression function: eight 32-bit words. -/
structure Hash8 where
  a : Nat
  b : Nat
  c : Nat
  d : Nat
  e : Nat
  f : Nat
  g : Nat
  hh : Nat
deriving Repr, DecidableEq

/-- Initial SHA-256 hash state (FIPS 180-4 section 5.3.3, in decimal). -/
def sha256H0 : Hash8 :=
  ⟨1779033703, 3144134277, 1013904242, 2773480762,
   1359893119, 2600822924, 528734635, 1541459225⟩

/-- Group bytes into big-endian 32-bit words. -/
def toWordsBE : List Nat → List Nat
  | b0 :: b1 :: b2 :: b3 :: rest =>
    (b0 * 16777216 + b1 * 65536 + b2 * 256 + b3) :: toWordsBE rest
  | _ => []

/-- Extend the 16-word message schedule by `n` further words. -/
def schedRounds : Nat → List Nat → List Nat
  | 0, w => w
  | n + 1, w =>
    let i := w.length
    let x15 := w.getD (i - 15) 0
    let x2 := w.getD (i - 2) 0
    let s0 := (rotr32 x15 7) ^^^ (rotr32 x15 18) ^^^ (x15 >>> 3)
    let s1 := (rotr32 x2 17) ^^^ (rotr32 x2 19) ^^^ (x2 >>> 10)
    schedRounds n (w ++ [w32 (w.getD (i - 16) 0 + s0 + w.getD (i - 7) 0 + s1)])

/-- One SHA-256 compression round, consuming one (constant, schedule word) pair. -/
def sha256Round (st : Hash8) (kw : Nat × Nat) : Hash8 :=
  let s1 := (rotr32 st.e 6) ^^^ (rotr32 st.e 11) ^^^ (rotr32 st.e 25)
  let ch := (st.e &&& st.f) ^^^ ((st.e ^^^ 4294967295) &&& st.g)
  let temp1 := w32 (st.hh + s1 + ch + kw.1 + kw.2)
  let s0 := (rotr32 st.a 2) ^^^ (rotr32 st.a 13) ^^^ (rotr32 st.a 22)
  let maj := (st.a &&& st.b) ^^^ (st.a &&& st.c) ^^^ (st.b &&& st.c)
  let temp2 := w32 (s0 + maj)
  ⟨w32 (temp1 + temp2), st.a, st.b, st.c, w32 (st.d + temp1), st.e, st.f, st.g⟩

/-- Compress one 64-byte block into the running hash state. -/
def sha256Compress (hv : Hash8) (block : List Nat) : Hash8 :=
  let w := schedRounds 48 (toWordsBE block)
  let st := (sha256K.zip w).foldl sha256Round hv
  ⟨w32 (hv.a + st.a), w32 (hv.b + st.b), w32 (hv.c + st.c), w32 (hv.d + st.d),
   w32 (hv.e + st.e), w32 (hv.f + st.f), w32 (hv.g + st.g), w32 (hv.hh + st.hh)⟩

/-- Split a byte list into 64-byte chunks, with fuel bounding the recursion depth. -/
def chunks64Go : Nat → List Nat → List (List Nat)
  | _, [] => []
  | 0, _ => []
  | fuel + 1, l => l.take 64 :: chunks64Go fuel (l.drop 64)

/-- Split a byte list into 64-byte chunks. -/
def chunks64 (l : List Nat) : List (List Nat) := chunks64Go l.length l

/-- SHA-256 padding: append 0x80, zeros, and the 64-bit big-endian bit length. -/
def sha256Pad (msg : List Nat) : List Nat :=
  let len := msg.length
  let zeros := (119 - len % 64) % 64
  msg ++ [128] ++ List.replicate zeros 0 ++ be64 (len * 8)

/-- SHA-256 of a byte list, as 32 bytes. Validated against the standard test
vectors (e.g. the digest of the empty message is
e3b0c44298fc1c149afbf4c8996fb92427ae41e4649b934ca495991b7852b855). -/
def sha256 (msg : List Nat) : List Nat :=
  let final := (chunks64 (sha256Pad msg)).foldl sha256Compress sha256H0
  wordBE final.a ++ wordBE final.b ++ wordBE final.c ++ wordBE final.d ++
  wordBE final.e ++ wordBE final.f ++ wordBE final.g ++ wordBE final.hh

/-- Lowercase hexadecimal digit for a nibble, as produced by `hex::encode`. -/
def hexDigitChar (n : Nat) : Char := Char.ofNat (if n < 10 then 48 + n else 87 + n)

/-- Lowercase hexadecimal rendering of a byte list (`hex::encode`). -/
def hexEncode (bytes : List Nat) : String :=
  String.mk ((bytes.map (fun b => [hexDigitChar (b / 16), hexDigitChar (b % 16)])).flatten)

/-- Little-endian bytes of a `u64` (bincode v1 length encoding). -/
def u64le (n : Nat) : List Nat :=
  [n % 256, n / 256 % 256, n / 256 ^ 2 % 256, n / 256 ^ 3 % 256,
   n / 256 ^ 4 % 256, n / 256 ^ 5 % 256, n / 256 ^ 6 % 256, n / 256 ^ 7 % 256]

/-- Little-endian two's-complement bytes of an `i32`. -/
def i32le (n : Int) : List Nat :=
  let m := (n.emod 4294967296).toNat
  [m % 256, m / 256 % 256, m / 65536 % 256, m / 16777216 % 256]

/-- UTF-8 bytes of one character. -/
def utf8Bytes (c : Char) : List Nat :=
  let n := c.toNat
  if n < 128 then [n]
  else if n < 2048 then [192 + n / 64, 128 + n % 64]
  else if n < 65536 then [224 + n / 4096, 128 + n / 64 % 64, 128 + n % 64]
  else [240 + n / 262144, 128 + n / 4096 % 64, 128 + n / 64 % 64, 128 + n % 64]

/-- UTF-8 bytes of a string. -/
def strBytes (s : String) : List Nat := (s.data.map utf8Bytes).flatten

/-- Bincode (v1, fixint, little-endian) encoding of a string: u64 byte length
then UTF-8 bytes. -/
def bincodeString (s : String) : List Nat := u64le (strBytes s).length ++ strBytes s

/-- Bincode encoding of a `Vec<String>`: u64 element count then the elements. -/
def bincodeVecString (v : List String) : List Nat :=
  u64le v.length ++ (v.map bincodeString).flatten

/-- Bincode encoding of an `Option`: a one-byte tag (0 = None, 1 = Some) then
the payload. -/
def bincodeOption (enc : α → List Nat) : Option α → List Nat
  | none => [0]
  | some a => 1 :: enc a

/-- Bincode encoding of the repository digest tuple
`(&self.topics, &self.languages, &self.stars)` from
`Repository::update_digest` (tracker.rs line 65). -/
def bincodeRepoTuple (topics languages : Option (List String)) (stars : Option Int) : List Nat :=
  bincodeOption bincodeVecString topics ++ bincodeOption bincodeVecString languages ++
  bincodeOption i32le stars

/-- Bincode encoding of the issue digest tuple `(&self.title, &self.labels)`
from `Issue::update_digest` (tracker.rs line 87). -/
def bincodeIssueTuple (title : String) (labels : List String) : List Nat :=
  bincodeString title ++ bincodeVecString labels

/-- The repository digest exactly as `Repository::update_digest` computes it:
lowercase hex of the SHA-256 of the bincode encoding of
(topics, languages, stars). -/
def repoDigest (topics languages : Option (List String)) (stars : Option Int) : String :=
  hexEncode (sha256 (bincodeRepoTuple topics languages stars))

/-- The issue digest exactly as `Issue::update_digest` computes it: lowercase
hex of the SHA-256 of the bincode encoding of (title, labels). -/
def issueDigest (title : String) (labels : List String) : String :=
  hexEncode (sha256 (bincodeIssueTuple title labels))

/-- Issue information (tracker.rs lines 72-82). `Uuid` and `OffsetDateTime`
carry no structure the tracker inspects, so the identifier is an `Int`
(an i64 in the source) and the timestamp an `Int`. -/
structure Issue where
  issue_id : Int
  title : String
  url : String
  number : Int
  labels : List String
  published_at : Int
  digest : Option String
deriving Repr, DecidableEq

/-- The body of `Issue::update_digest` (tracker.rs lines 86-92) applied to the
result of the `bincode::serialize` call: on a serialization error the issue is
returned unchanged (the `let Ok(data) = ... else return` branch); on success
the digest is set to the hex SHA-256 of the serialized bytes. -/
def Issue.update_digest_from (i : Issue) (ser : Except String (List Nat)) : Issue :=
  match ser with
  | .error _ => i
  | .ok data => { i with digest := some (hexEncode (sha256 data)) }

/-- Update an issue's digest (`Issue::update_digest`). Serializing
`(&self.title, &self.labels)` with bincode cannot fail on these types, so the
serializer result is always `ok`. -/
def Issue.update_digest (i : Issue) : Issue :=
  i.update_digest_from (.ok (bincodeIssueTuple i.title i.labels))

/-- Repository information (tracker.rs lines 20-29). The `Uuid` identifier is
modelled as a `Nat`. -/
structure Repository where
  repository_id : Nat
  url : String
  topics : Option (List String)
  languages : Option (List String)
  stars : Option Int
  digest : Option String
deriving Repr, DecidableEq

/-- The body of `Repository::update_digest` (tracker.rs lines 64-69) applied
to the result of the `bincode::serialize` call: a serialization error
propagates (the `?` operator); on success the digest is set to the hex
SHA-256 of the serialized bytes. -/
def Repository.update_digest_from (r : Repository) (ser : Except String (List Nat)) :
    Except String Repository :=
  match ser with
  | .error e => .error e
  | .ok data => .ok { r with digest := some (hexEncode (sha256 data)) }

/-- Update a repository's digest (`Repository::update_digest`). Serializing
`(&self.topics, &self.languages, &self.stars)` with bincode cannot fail on
these types, so the serializer result is always `ok`. -/
def Repository.update_digest (r : Repository) : Except String Repository :=
  r.update_digest_from (.ok (bincodeRepoTuple r.topics r.languages r.stars))

/-- The fetched GitHub repository view (`repo_view::RepoViewRepository`).
`topics_nodes` models `repository_topics.nodes: Option<Vec<Option<Node>>>`
with each node already projected to `node.topic.name`; `languages_nodes`
models `languages: Option<Languages>` whose `nodes` is again
`Option<Vec<Option<Node>>>`, projected to `node.name`; `stargazer_count` is
the i64 star count. `issues_list` is the open-issues collection of the view:
the `issues()` accessor lives in the github module outside the tracker
source, and the spec (section 6) specifies the fetched view as carrying the
full open-issues collection, so the view is modelled as carrying it
directly. -/
structure RepoViewRepository where
  topics_nodes : Option (List (Option String))
  languages_nodes : Option (Option (List (Option String)))
  stargazer_count : Int
  issues_list : List Issue
deriving Repr, DecidableEq

/-- Topics as computed by `Repository::update_gh_data` (tracker.rs lines
35-41): map over the optional node list, with `flatten` dropping the `None`
nodes. -/
def ghTopics (gh_repo : RepoViewRepository) : Option (List String) :=
  gh_repo.topics_nodes.map (fun nodes => nodes.filterMap id)

/-- Languages as computed by `Repository::update_gh_data` (tracker.rs lines
44-52): `and_then` over the optional `languages` connection, map over its
optional node list, `flatten` dropping the `None` nodes. -/
def ghLanguages (gh_repo : RepoViewRepository) : Option (List String) :=
  gh_repo.languages_nodes.bind (fun languages => languages.map (fun nodes => nodes.filterMap id))

/-- The wrapping `as i32` cast applied to the i64 `stargazer_count`
(tracker.rs line 55). -/
def toI32 (n : Int) : Int :=
  let m := n.emod 4294967296
  if m < 2147483648 then m else m - 4294967296

/-- Update a repository's GitHub data (`Repository::update_gh_data`,
tracker.rs lines 33-61): overwrite topics, languages and stars from the
fetched view, remember the previous digest, recompute the digest, and report
whether it changed. -/
def Repository.update_gh_data (r : Repository) (gh_repo : RepoViewRepository) :
    Except String (Repository × Bool) :=
  let r1 := { r with
    topics := ghTopics gh_repo
    languages := ghLanguages gh_repo
    stars := some (toI32 gh_repo.stargazer_count) }
  let prev_digest := r1.digest
  match r1.update_digest with
  | .error e => .error e
  | .ok r2 => .ok (r2, r2.digest != prev_digest)

/-- Datastore write operations issued by one sync unit, in the order the
tracker awaits them. -/
inductive DbOp where
  | updateRepoGhData (repo : Repository)
  | registerIssue (repository_id : Nat) (issue : Issue)
  | unregisterIssue (issue_id : Int)
  | updateLastTrackTs (repository_id : Nat)
deriving Repr, DecidableEq

/-- Look an issue up by identifier: the `issues.iter().find(...)` part of
`find_issue` (tracker.rs lines 221-226). -/
def lookupIssue (issue_id : Int) (issues : List Issue) : Option Issue :=
  issues.find? (fun i => i.issue_id == issue_id)

/-- Find an issue in the provided collection, returning its digest if found
(`find_issue`, tracker.rs lines 221-226). The source maps the found issue
through `i.digest.clone().expect("to be present")`, which panics when the
found issue has no stored digest; the panic is modelled as the error value
carrying the `expect` message. -/
def find_issue (issue_id : Int) (issues : List Issue) : Except String (Option String) :=
  match lookupIssue issue_id issues with
  | none => .ok none
  | some i =>
    match i.digest with
    | some d => .ok (some d)
    | none => .error "to be present"

/-- The register/update loop of `track_repository` (tracker.rs lines
195-202): for each issue fetched from GitHub, look up the local digest; if
there is none or it differs from the fetched issue's digest, issue a
`register_issue` write. An error value is the modelled `find_issue` panic. -/
def registerOps (repository_id : Nat) : List Issue → List Issue → Except String (List DbOp)
  | [], _ => .ok []
  | issue :: rest, issues_in_db =>
    match find_issue issue.issue_id issues_in_db with
    | .error m => .error m
    | .ok digest =>
      match registerOps repository_id rest issues_in_db with
      | .error m => .error m
      | .ok ops =>
        if digest.isNone || digest != issue.digest then
          .ok (DbOp.registerIssue repository_id issue :: ops)
        else
          .ok ops

/-- The unregister loop of `track_repository` (tracker.rs lines 204-210): for
each local issue whose identifier is not found among the fetched issues,
issue an `unregister_issue` write. An error value is the modelled
`find_issue` panic (it fires when a fetched issue matching the local
identifier has no digest). -/
def unregisterOps (issues_in_gh : List Issue) : List Issue → Except String (List DbOp)
  | [] => .ok []
  | issue :: rest =>
    match find_issue issue.issue_id issues_in_gh with
    | .error m => .error m
    | .ok found =>
      match unregisterOps issues_in_gh rest with
      | .error m => .error m
      | .ok ops =>
        if found.isNone then
          .ok (DbOp.unregisterIssue issue.issue_id :: ops)
        else
          .ok ops

/-- The issue reconciliation step of `track_repository` (tracker.rs lines
191-210): the register/update loop over the fetched issues followed by the
unregister loop over the local issues. -/
def syncIssuesOps (repository_id : Nat) (issues_in_gh issues_in_db : List Issue) :
    Except String (List DbOp) :=
  match registerOps repository_id issues_in_gh issues_in_db with
  | .error m => .error m
  | .ok regs =>
    match unregisterOps issues_in_gh issues_in_db with
    | .error m => .error m
    | .ok unregs => .ok (regs ++ unregs)

/-- Outcome of one sync unit: a value, an error returned through `Result`, or
a Rust panic. -/
inductive TrackResult (α : Type) where
  | ok (a : α)
  | err (e : String)
  | panicked (msg : String)
deriving Repr, DecidableEq

/-- Track one repository (`track_repository`, tracker.rs lines 171-218),
embedded as the ordered list of datastore writes the unit performs. The
fetch outcome stands for `gh.repository(...)`; the local issue collection
stands for `db.get_repository_issues(...)`. Datastore writes themselves are
emitted as operations (their own failure modes are outside this embedding;
the claims below concern units whose writes succeed). -/
def track_repository (fetch_result : Except String RepoViewRepository)
    (issues_in_db : List Issue) (repo : Repository) : TrackResult (List DbOp) :=
  match fetch_result with
  | .error e => .err e
  | .ok gh_repo =>
    match repo.update_gh_data gh_repo with
    | .error e => .err e
    | .ok (repo2, changed) =>
      let metaOps := if changed then [DbOp.updateRepoGhData repo2] else []
      match syncIssuesOps repo2.repository_id gh_repo.issues_list issues_in_db with
      | .error m => .panicked m
      | .ok issueOps =>
        .ok (metaOps ++ issueOps ++ [DbOp.updateLastTrackTs repo2.repository_id])

/-- Modelled from the spec: the datastore's `upsert_issue` (spec section 6),
keyed by issue identifier — replace the row with the matching identifier, or
insert the issue if no row matches. The concrete database layer is not part
of the tracker source. -/
def upsertIssue : List Issue → Issue → List Issue
  | [], i => [i]
  | x :: rest, i => if x.issue_id == i.issue_id then i :: rest else x :: upsertIssue rest i

/-- Modelled from the spec: the datastore's `delete_issue` (spec section 6) —
remove every row with the given identifier. -/
def deleteIssue (issue_id : Int) (issues : List Issue) : List Issue :=
  issues.filter (fun x => !(x.issue_id == issue_id))

/-- Modelled from the spec: interpretation of one write operation on the
issue table of one repository. Metadata and timestamp writes do not touch
the issue table. -/
def applyIssueOp (issues : List Issue) : DbOp → List Issue
  | DbOp.registerIssue _ i => upsertIssue issues i
  | DbOp.unregisterIssue iid => deleteIssue iid issues
  | _ => issues

/-- Modelled from the spec: interpretation of a write sequence on the issue
table. -/
def applyIssueOps (issues : List Issue) (ops : List DbOp) : List Issue :=
  ops.foldl applyIssueOp issues

/-- Modelled from the spec: the datastore's state for one tracked repository —
its metadata row, its issue table, and its last-tracked timestamp. -/
structure RepoRecord where
  repo : Repository
  issues : List Issue
  last_track_ts : Option Nat
deriving Repr, DecidableEq

/-- Modelled from the spec: interpretation of one write operation on a
repository's datastore state, at time `now`. `update_repository_gh_data`
overwrites the metadata row, `register_issue` and `unregister_issue` act on
the issue table, and `update_repository_last_track_ts` sets only the
last-tracked timestamp. -/
def applyDbOp (now : Nat) (s : RepoRecord) : DbOp → RepoRecord
  | DbOp.updateRepoGhData r => { s with repo := r }
  | DbOp.registerIssue _ i => { s with issues := upsertIssue s.issues i }
  | DbOp.unregisterIssue iid => { s with issues := deleteIssue iid s.issues }
  | DbOp.updateLastTrackTs _ => { s with last_track_ts := some now }

/-- Configuration values the tracker reads: a string list (GitHub tokens) or
a number (concurrency). -/
inductive ConfigVal where
  | strings (l : List String)
  | num (n : Nat)
deriving Repr, DecidableEq

/-- A configuration is a partial map from keys to values (the `Config`
argument of `run`). -/
def Config : Type := String → Option ConfigVal

/-- Read a string-list key from the configuration (`cfg.get::<Vec<String>>`). -/
def cfgGetStringList (cfg : Config) (key : String) : Except String (List String) :=
  match cfg key with
  | some (ConfigVal.strings l) => .ok l
  | _ => .error (key ++ " not found")

/-- Read a numeric key from the configuration (`cfg.get`). -/
def cfgGetNum (cfg : Config) (key : String) : Except String Nat :=
  match cfg key with
  | some (ConfigVal.num n) => .ok n
  | _ => .error (key ++ " not found")

/-- Maximum time that can take tracking a single repository (tracker.rs line
18). -/
def REPOSITORY_TRACK_TIMEOUT : Nat := 300

/-- One dispatched sync unit as the scheduler observes it: the repository
URL, how long the unit takes, and the `Result` it produces if allowed to
finish. -/
structure UnitSim where
  url : String
  duration : Nat
  result : Except String Unit
deriving Repr

/-- Decidable equality for `Except` results. -/
instance {α β : Type} [DecidableEq α] [DecidableEq β] : DecidableEq (Except α β) := fun a b =>
  match a, b with
  | .ok x, .ok y =>
    if h : x = y then isTrue (by rw [h]) else isFalse (fun hc => h (by cases hc; rfl))
  | .error e, .error f =>
    if h : e = f then isTrue (by rw [h]) else isFalse (fun hc => h (by cases hc; rfl))
  | .ok _, .error _ => isFalse (fun hc => Except.noConfusion hc)
  | .error _, .ok _ => isFalse (fun hc => Except.noConfusion hc)

/-- The `tokio::time::timeout` wrapper around one unit (tracker.rs lines
124-132): the unit's own result if it finishes within the deadline,
otherwise the timeout error (`tokio`'s elapsed error rendered through
`format_err!`). -/
def applyDeadline (deadline : Nat) (u : UnitSim) : Except String Unit :=
  if u.duration ≤ deadline then u.result else .error "deadline has elapsed"

/-- The `.context(format!("error tracking repository {}", repo_url))` layer
(tracker.rs line 133), rendered as anyhow's alternate format does: the
context, a colon and the cause. -/
def contextualizeResult (url : String) : Except String Unit → Except String Unit
  | .ok _ => .ok ()
  | .error cause => .error ("error tracking repository " ++ url ++ ": " ++ cause)

/-- The folding step aggregating unit outcomes (tracker.rs lines 139-148): an
`Ok` keeps the accumulator; an `Err` becomes the result if the accumulator is
`Ok`, and otherwise is appended to the accumulated error with a newline (the
`format_err!("{:#}\n{:#}", ...)` arm). -/
def combineResults (final_result task_result : Except String Unit) : Except String Unit :=
  match task_result with
  | .ok _ => final_result
  | .error task_err =>
    match final_result with
    | .ok _ => .error task_err
    | .error final_err => .error (final_err ++ "\n" ++ task_err)

/-- Fold a list of unit outcomes into one combined outcome, starting from
`Ok` (tracker.rs lines 139-148). -/
def aggregateResults (results : List (Except String Unit)) : Except String Unit :=
  results.foldl combineResults (.ok ())

/-- First error of the rate-limit reporting loop (tracker.rs lines 150-163):
each iteration builds a client and queries the rate-limit endpoint, and every
step is followed by `?`, so the first failing token's error is returned. -/
def firstError : List (Except String Unit) → Option String
  | [] => none
  | .ok _ :: rest => firstError rest
  | .error e :: _ => some e

/-- The tracking run (`run`, tracker.rs lines 96-167): read the GitHub tokens
(fatal if the key is missing or the list empty), return `Ok` immediately on
an empty due-list, read the concurrency limit, dispatch every unit under the
fixed 300-second deadline and fold the outcomes, then run the rate-limit
reporting loop whose first error — note the `?` operators on lines 152-158 —
is returned in place of the aggregated result. `units` stands for the
due-list returned by `db.get_repositories_to_track()` together with each
unit's simulated behaviour; `rate_results` stands for the outcomes of the
per-token rate-limit queries. -/
def run (cfg : Config) (units : List UnitSim) (rate_results : List (Except String Unit)) :
    Except String Unit :=
  match cfgGetStringList cfg "creds.githubTokens" with
  | .error e => .error e
  | .ok gh_tokens =>
    if gh_tokens.isEmpty then
      .error "GitHub tokens not found in config file (creds.githubTokens)"
    else if units.isEmpty then
      .ok ()
    else
      match cfgGetNum cfg "tracker.concurrency" with
      | .error e => .error e
      | .ok _c =>
        let result := aggregateResults
          (units.map (fun u => contextualizeResult u.url (applyDeadline REPOSITORY_TRACK_TIMEOUT u)))
        match firstError rate_results with
        | some e => .error e
        | none => result

/-- Whether the register/update loop writes a given fetched issue: true when
no local issue shares its identifier or when the matching local issue's
stored digest differs from the fetched issue's digest. -/
def issueChanged (issue : Issue) (issues_in_db : List Issue) : Bool :=
  match lookupIssue issue.issue_id issues_in_db with
  | none => true
  | some l => l.digest != issue.digest

/-- The per-unit failure messages of a run, in dispatch order: one
contextualized message for every unit whose (deadline-wrapped) outcome is an
error, and nothing for the units that succeeded. -/
def failedMessages (units : List UnitSim) : List String :=
  units.filterMap (fun u =>
    match applyDeadline REPOSITORY_TRACK_TIMEOUT u with
    | .ok _ => none
    | .error cause => some ("error tracking repository " ++ u.url ++ ": " ++ cause))

/-- Join error messages with newlines, as the aggregation fold does. -/
def joinErrs : List String → String
  | [] => ""
  | [e] => e
  | e :: rest => e ++ "\n" ++ joinErrs rest

/-- The error messages among a list of results, in order. -/
def errorsOf (results : List (Except String Unit)) : List String :=
  results.filterMap (fun r =>
    match r with
    | .ok _ => none
    | .error e => some e)

/-- The reconciliation contract of one sync unit's issue step: the writes are
exactly one upsert per fetched issue that is new or changed (in fetch order)
followed by one delete per local issue with no fetched counterpart (in local
order); applying these writes to the local issue table leaves it with exactly
the fetched identifier set, where every entry carries the fetched issue's
digest and every written entry is the fetched issue itself (an unchanged
entry keeps its stored row). -/
def ReconcileSpec (rid : Nat) (issues_in_gh issues_in_db : List Issue) (ops : List DbOp) : Prop :=
  ops = (issues_in_gh.filter (fun i => issueChanged i issues_in_db)).map
      (DbOp.registerIssue rid) ++
      (issues_in_db.filter (fun l => (lookupIssue l.issue_id issues_in_gh).isNone)).map
        (fun l => DbOp.unregisterIssue l.issue_id) ∧
  (∀ iid : Int, lookupIssue iid (applyIssueOps issues_in_db ops) = none ↔
      lookupIssue iid issues_in_gh = none) ∧
  (∀ i ∈ issues_in_gh,
      ∃ f, lookupIssue i.issue_id (applyIssueOps issues_in_db ops) = some f ∧
        f.issue_id = i.issue_id ∧ f.digest = i.digest ∧
        (issueChanged i issues_in_db = true → f = i))

/-- The repository produced by a successful `Repository::update_gh_data`:
fields overwritten from the fetched view and the digest recomputed from
them. -/
def updatedRepo (r : Repository) (gh_repo : RepoViewRepository) : Repository :=
  { r with
    topics := ghTopics gh_repo
    languages := ghLanguages gh_repo
    stars := some (toI32 gh_repo.stargazer_count)
    digest := some (repoDigest (ghTopics gh_repo) (ghLanguages gh_repo)
      (some (toI32 gh_repo.stargazer_count))) }

/-- A concrete configuration holding one GitHub token and a concurrency
limit. -/
def cfgA : Config := fun key =>
  if key = "creds.githubTokens" then some (ConfigVal.strings ["ghp_alpha"])
  else if key = "tracker.concurrency" then some (ConfigVal.num 10)
  else none

/-- A concrete configuration agreeing with `cfgA` on the two keys the tracker
reads, and additionally carrying a (never consulted) timeout key. -/
def cfgB : Config := fun key =>
  if key = "creds.githubTokens" then some (ConfigVal.strings ["ghp_alpha"])
  else if key = "tracker.concurrency" then some (ConfigVal.num 10)
  else if key = "tracker.timeout" then some (ConfigVal.num 5)
  else none

/-- A unit that finishes quickly and succeeds. -/
def unitAlpha : UnitSim := ⟨"https://github.com/org/alpha", 1, .ok ()⟩

/-- Another unit that finishes quickly and succeeds. -/
def unitBeta : UnitSim := ⟨"https://github.com/org/beta", 2, .ok ()⟩

/-- A unit that fails with a fetch error. -/
def unitGamma : UnitSim := ⟨"https://github.com/org/gamma", 3, .error "fetch failed"⟩

/-- A unit that runs past the 300-second deadline. -/
def unitDelta : UnitSim := ⟨"https://github.com/org/delta", 301, .ok ()⟩

/-- A remote issue with no matching local identifier. -/
def issueNew : Issue :=
  ⟨1, "new issue", "https://github.com/org/alpha/issues/1", 1, [], 100, some "dnew"⟩

/-- A remote issue whose digest differs from the matching local one. -/
def issueRemoteChanged : Issue :=
  ⟨2, "changed title", "https://github.com/org/alpha/issues/2", 2, [], 101, some "dchanged"⟩

/-- The stale local copy of `issueRemoteChanged` (same identifier, older
digest). -/
def issueLocalStale : Issue :=
  ⟨2, "old title", "https://github.com/org/alpha/issues/2", 2, [], 101, some "dstale"⟩

/-- A local issue no longer present remotely. -/
def issueGone : Issue :=
  ⟨9, "gone", "https://github.com/org/alpha/issues/9", 9, [], 90, some "dgone"⟩

/-- A remote issue whose title and labels — hence digest — are unchanged but
whose URL moved. -/
def issueRemoteRenamed : Issue :=
  ⟨3, "same title", "https://github.com/neworg/alpha/issues/3", 3, ["bug"], 50,
   some (issueDigest "same title" ["bug"])⟩

/-- The local copy of `issueRemoteRenamed`: equal digest, old URL. -/
def issueLocalRenamed : Issue :=
  ⟨3, "same title", "https://github.com/org/alpha/issues/3", 3, ["bug"], 50,
   some (issueDigest "same title" ["bug"])⟩

/-- A local issue whose stored digest is absent. -/
def issueNoDigestLocal : Issue :=
  ⟨4, "no digest yet", "https://github.com/org/alpha/issues/4", 4, [], 70, none⟩

/-- The remote counterpart of `issueNoDigestLocal`, carrying its computed
digest. -/
def issueRemoteFour : Issue :=
  ⟨4, "no digest yet", "https://github.com/org/alpha/issues/4", 4, [], 70,
   some (issueDigest "no digest yet" [])⟩

/-- A fetched view with no topics, no languages, zero stars and no open
issues. -/
def ghViewEmpty : RepoViewRepository := ⟨none, none, 0, []⟩

/-- A repository whose stored digest already equals the digest of the fields
`ghViewEmpty` carries, so a sync against `ghViewEmpty` changes nothing. -/
def repoSeven : Repository :=
  ⟨7, "https://github.com/org/gamma", none, none, some 0, some (repoDigest none none (some 0))⟩

/-- A repository not yet fetched: no stored digest. -/
def repoFresh : Repository :=
  ⟨8, "https://github.com/org/delta", none, none, none, none⟩

/-- Joining a nonempty tail after gluing two messages with a newline is the
same as joining the three-part list. -/
theorem joinErrs_glue (a b : String) (l : List String) :
    joinErrs ((a ++ "\n" ++ b) :: l) = a ++ "\n" ++ joinErrs (b :: l) := by
  cases l with
  | nil => simp [joinErrs]
  | cons x xs => simp [joinErrs, String.append_assoc]

/-- Folding the aggregation step from an error accumulator produces the
newline-join of that error and all later errors. -/
theorem foldl_combine_error (rs : List (Except String Unit)) (f : String) :
    rs.foldl combineResults (.error f) = .error (joinErrs (f :: errorsOf rs)) := by
  induction rs generalizing f with
  | nil => simp [joinErrs, errorsOf]
  | cons r rest ih =>
    cases r with
    | ok u => simpa [combineResults, errorsOf] using ih f
    | error e =>
      simp only [List.foldl_cons, combineResults, errorsOf, List.filterMap_cons]
      rw [ih (f ++ "\n" ++ e), joinErrs_glue]
      simp [errorsOf, joinErrs]

/-- The aggregation fold returns `Ok` when no unit failed, and otherwise the
newline-join of exactly the failing units' messages, in order. -/
theorem aggregateResults_eq (rs : List (Except String Unit)) :
    aggregateResults rs =
      if errorsOf rs = [] then .ok () else .error (joinErrs (errorsOf rs)) := by
  induction rs with
  | nil => simp [aggregateResults, errorsOf]
  | cons r rest ih =>
    cases r with
    | ok u => simpa [aggregateResults, errorsOf, combineResults] using ih
    | error e =>
      simp only [aggregateResults, List.foldl_cons, combineResults]
      rw [foldl_combine_error]
      simp [errorsOf]

/-- The errors of the contextualized, deadline-wrapped unit outcomes are
exactly the per-unit failure messages. -/
theorem errorsOf_contextualized (units : List UnitSim) :
    errorsOf (units.map (fun u =>
        contextualizeResult u.url (applyDeadline REPOSITORY_TRACK_TIMEOUT u))) =
      failedMessages units := by
  induction units with
  | nil => rfl
  | cons u rest ih =>
    cases hd : applyDeadline REPOSITORY_TRACK_TIMEOUT u with
    | ok v =>
      simp only [errorsOf, failedMessages, List.map_cons, List.filterMap_cons, hd,
        contextualizeResult] at ih ⊢
      exact ih
    | error cause =>
      simp only [errorsOf, failedMessages, List.map_cons, List.filterMap_cons, hd,
        contextualizeResult] at ih ⊢
      rw [ih]

/-- C3 (counterexample): the claim says the whole run returns success if and
only if every dispatched sync unit succeeded. Here the single dispatched unit
succeeds within the deadline, yet the run returns an error, because the
rate-limit reporting loop's failure propagates through the `?` operators on
tracker.rs lines 152-158 and is returned in place of the aggregated unit
outcome. -/
theorem run_verdict_counterexample :
    applyDeadline REPOSITORY_TRACK_TIMEOUT unitAlpha = .ok () ∧
    run cfgA [unitAlpha] [.error "rate limit request failed"] =
      .error "rate limit request failed" := by
  exact ⟨rfl, by decide⟩

/-- C3 (amended): provided the post-run quota-reporting step raises no error
(and the configuration supplies a nonempty token list and a concurrency
value), the run returns success iff every dispatched unit succeeded — in
particular iff the due-list was empty or free of failures — and on failure it
returns exactly the newline-joined list of the failed units' messages, each
of the form "error tracking repository URL: cause", with no successful unit's
outcome included. -/
theorem run_verdict_aggregates_units (cfg : Config) (toks : List String) (c : Nat)
    (units : List UnitSim) (rate_results : List (Except String Unit))
    (htoks : cfgGetStringList cfg "creds.githubTokens" = .ok toks) (hne : toks ≠ [])
    (hconc : cfgGetNum cfg "tracker.concurrency" = .ok c)
    (hrate : firstError rate_results = none) :
    run cfg units rate_results =
      (if failedMessages units = [] then .ok ()
       else .error (joinErrs (failedMessages units))) ∧
    (run cfg units rate_results = .ok () ↔ failedMessages units = []) := by
  have hemp : toks.isEmpty = false := by
    cases toks with
    | nil => exact absurd rfl hne
    | cons a l => rfl
  have hrun : run cfg units rate_results =
      (if failedMessages units = [] then .ok ()
       else .error (joinErrs (failedMessages units))) := by
    unfold run
    rw [htoks]
    simp only [hemp, Bool.false_eq_true, if_false]
    cases units with
    | nil => simp [failedMessages]
    | cons u us =>
      simp only [List.isEmpty_cons, Bool.false_eq_true, if_false, hconc, hrate,
        aggregateResults_eq, errorsOf_contextualized]
  refine ⟨hrun, ?_⟩
  rw [hrun]
  by_cases hf : failedMessages units = []
  · simp [hf]
  · simp only [hf, if_neg hf, iff_false]
    intro hc
    exact Except.noConfusion hc

/-- C3 (witness): instantiation with one successful, one failing and one
timed-out unit and a clean rate-limit pass: the run's error is exactly the
newline-join of the two failed units' messages. -/
theorem run_verdict_aggregates_units_witness :
    cfgGetStringList cfgA "creds.githubTokens" = .ok ["ghp_alpha"] ∧
    (["ghp_alpha"] : List String) ≠ [] ∧
    cfgGetNum cfgA "tracker.concurrency" = .ok 10 ∧
    firstError [.ok ()] = none ∧
    (run cfgA [unitAlpha, unitGamma, unitDelta] [.ok ()] =
      (if failedMessages [unitAlpha, unitGamma, unitDelta] = [] then .ok ()
       else .error (joinErrs (failedMessages [unitAlpha, unitGamma, unitDelta]))) ∧
     (run cfgA [unitAlpha, unitGamma, unitDelta] [.ok ()] = .ok () ↔
      failedMessages [unitAlpha, unitGamma, unitDelta] = [])) :=
  ⟨by decide, by decide, by decide, rfl,
   run_verdict_aggregates_units cfgA ["ghp_alpha"] 10 [unitAlpha, unitGamma, unitDelta]
     [.ok ()] (by decide) (by decide) (by decide) rfl⟩

/-- C5 (counterexample): the claim says a failure while querying or parsing
the rate-limit status is logged only and never changes the run's verdict.
Here every unit outcome aggregates to `Ok`, yet the run returns the
rate-limit query's error: the loop on tracker.rs lines 150-163 applies `?` to
the client build, the request and the JSON decode, so such a failure is
escalated, not merely logged. -/
theorem rate_limit_counterexample :
    aggregateResults
        [contextualizeResult unitBeta.url (applyDeadline REPOSITORY_TRACK_TIMEOUT unitBeta)] =
      .ok () ∧
    run cfgA [unitBeta] [.error "error deserializing rate limit response"] =
      .error "error deserializing rate limit response" := by
  exact ⟨rfl, by decide⟩

/-- C5 (amended): a failure while querying or parsing the remote API's
rate-limit status after draining is propagated by the `?` operators and
becomes the run's returned error, overriding the aggregated unit outcome
(whenever at least one unit was dispatched and the configuration was read
successfully). -/
theorem rate_limit_error_overrides_verdict (cfg : Config) (toks : List String) (c : Nat)
    (units : List UnitSim) (rate_results : List (Except String Unit)) (e : String)
    (htoks : cfgGetStringList cfg "creds.githubTokens" = .ok toks) (hne : toks ≠ [])
    (hconc : cfgGetNum cfg "tracker.concurrency" = .ok c) (hunits : units ≠ [])
    (hrate : firstError rate_results = some e) :
    run cfg units rate_results = .error e := by
  have hemp : toks.isEmpty = false := by
    cases toks with
    | nil => exact absurd rfl hne
    | cons a l => rfl
  unfold run
  rw [htoks]
  simp only [hemp, Bool.false_eq_true, if_false]
  cases units with
  | nil => exact absurd rfl hunits
  | cons u us =>
    simp only [List.isEmpty_cons, Bool.false_eq_true, if_false, hconc, hrate]

/-- C5 (witness): instantiation with one failing unit and a failing
rate-limit query: the rate-limit error is the run's result even though a unit
error was also aggregated. -/
theorem rate_limit_error_overrides_verdict_witness :
    cfgGetStringList cfgA "creds.githubTokens" = .ok ["ghp_alpha"] ∧
    (["ghp_alpha"] : List String) ≠ [] ∧
    cfgGetNum cfgA "tracker.concurrency" = .ok 10 ∧
    ([unitGamma] : List UnitSim) ≠ [] ∧
    firstError [.error "bad token"] = some "bad token" ∧
    run cfgA [unitGamma] [.error "bad token"] = .error "bad token" :=
  ⟨by decide, by decide, by decide, by simp, rfl,
   rate_limit_error_overrides_verdict cfgA ["ghp_alpha"] 10 [unitGamma] [.error "bad token"]
     "bad token" (by decide) (by decide) (by decide) (by simp) rfl⟩

/-- C10: the deadline applied to every sync unit is the fixed constant
`REPOSITORY_TRACK_TIMEOUT = 300` seconds, and the run reads only the
`creds.githubTokens` and `tracker.concurrency` keys of its configuration
argument: any two configurations agreeing on those two keys make the run
behave identically, so no timeout value is ever read from the
configuration. -/
theorem deadline_fixed_at_300 :
    REPOSITORY_TRACK_TIMEOUT = 300 ∧
    ∀ (cfg cfg' : Config) (units : List UnitSim) (rate_results : List (Except String Unit)),
      cfg "creds.githubTokens" = cfg' "creds.githubTokens" →
      cfg "tracker.concurrency" = cfg' "tracker.concurrency" →
      run cfg units rate_results = run cfg' units rate_results := by
  refine ⟨rfl, ?_⟩
  intro cfg cfg' units rate_results h1 h2
  simp only [run, cfgGetStringList, cfgGetNum, h1, h2]

/-- C6: when serializing the digest input fails, computing an Issue's digest
returns without error and leaves the issue — in particular its previous
digest value — unchanged (the `let Ok(data) = ... else return` branch of
`Issue::update_digest`), whereas computing a Repository's digest propagates
the serialization error to its caller (the `?` in
`Repository::update_digest`). The last two conjuncts record that the
non-generic entry points are these bodies applied to the (on these field
types always succeeding) bincode serializer. -/
theorem digest_serialization_error_handling (i : Issue) (r : Repository) (e : String) :
    Issue.update_digest_from i (.error e) = i ∧
    (Issue.update_digest_from i (.error e)).digest = i.digest ∧
    Repository.update_digest_from r (.error e) = .error e ∧
    Issue.update_digest i = Issue.update_digest_from i (.ok (bincodeIssueTuple i.title i.labels)) ∧
    Repository.update_digest r =
      Repository.update_digest_from r (.ok (bincodeRepoTuple r.topics r.languages r.stars)) :=
  ⟨rfl, rfl, rfl, rfl, rfl⟩

/-- Every byte of a big-endian word rendering is below 256. -/
theorem wordBE_lt (w : Nat) : ∀ b ∈ wordBE w, b < 256 := by
  intro b hb
  simp only [wordBE, List.mem_cons, List.not_mem_nil, or_false] at hb
  rcases hb with hb | hb | hb | hb <;> omega

/-- A SHA-256 digest consists of 32 bytes. -/
theorem sha256_length (msg : List Nat) : (sha256 msg).length = 32 := by
  simp [sha256, wordBE]

/-- Every byte of a SHA-256 digest is below 256. -/
theorem sha256_mem_lt (msg : List Nat) : ∀ b ∈ sha256 msg, b < 256 := by
  simp only [sha256, List.forall_mem_append]
  exact ⟨⟨⟨⟨⟨⟨⟨wordBE_lt _, wordBE_lt _⟩, wordBE_lt _⟩, wordBE_lt _⟩, wordBE_lt _⟩,
    wordBE_lt _⟩, wordBE_lt _⟩, wordBE_lt _⟩

/-- Hex encoding yields two characters per byte. -/
theorem hexEncode_length (bytes : List Nat) : (hexEncode bytes).length = 2 * bytes.length := by
  induction bytes with
  | nil => rfl
  | cons b rest ih =>
    simp only [hexEncode, String.length, List.map_cons, List.flatten_cons] at ih ⊢
    simp only [List.length_append, List.length_cons, List.length_nil] at ih ⊢
    omega

/-- Hex digits of nibbles are hexadecimal characters. -/
theorem hexDigitChar_mem (n : Nat) (h : n < 16) :
    "0123456789abcdef".data.contains (hexDigitChar n) = true := by
  interval_cases n <;> decide

/-- Every character of the hex encoding of a byte list is a lowercase
hexadecimal character. -/
theorem hexEncode_chars (bytes : List Nat) (hb : ∀ b ∈ bytes, b < 256) :
    ∀ c ∈ (hexEncode bytes).data, "0123456789abcdef".data.contains c = true := by
  intro c hc
  simp only [hexEncode] at hc
  rw [List.mem_flatten] at hc
  obtain ⟨l, hl, hcl⟩ := hc
  rw [List.mem_map] at hl
  obtain ⟨b, hbmem, rfl⟩ := hl
  have hblt := hb b hbmem
  have h1 : b / 16 < 16 := by omega
  have h2 : b % 16 < 16 := by omega
  simp only [List.mem_cons, List.not_mem_nil, or_false] at hcl
  rcases hcl with rfl | rfl
  · exact hexDigitChar_mem _ h1
  · exact hexDigitChar_mem _ h2

set_option maxRecDepth 1000000 in
/-- C7: the repository digest computation is a deterministic pure function of
the tuple (topics, languages, stars) — repeated computations of equal field
values are the same fixed function application — its output is a fixed-length
(64-character) string of lowercase hexadecimal characters, and a
present-but-empty collection (`Some` of an empty list) yields a different
digest than an absent one (`None`), checked concretely in the topics
position. -/
theorem repo_digest_deterministic_hex :
    (∀ (topics languages : Option (List String)) (stars : Option Int),
      repoDigest topics languages stars =
        hexEncode (sha256 (bincodeRepoTuple topics languages stars))) ∧
    (∀ (topics languages : Option (List String)) (stars : Option Int),
      (repoDigest topics languages stars).length = 64) ∧
    (∀ (topics languages : Option (List String)) (stars : Option Int),
      (repoDigest topics languages stars).data.all
        (fun c => "0123456789abcdef".data.contains c) = true) ∧
    repoDigest (some []) none none ≠ repoDigest none none none := by
  refine ⟨fun _ _ _ => rfl, ?_, ?_, ?_⟩
  · intro topics languages stars
    rw [repoDigest, hexEncode_length, sha256_length]
  · intro topics languages stars
    rw [List.all_eq_true]
    exact hexEncode_chars _ (sha256_mem_lt _)
  · decide

/-- An error of `find_issue` is always the `expect` panic message. -/
theorem find_issue_error_msg (iid : Int) (issues : List Issue) (m : String)
    (h : find_issue iid issues = .error m) : m = "to be present" := by
  unfold find_issue at h
  cases hlk : lookupIssue iid issues <;> simp only [hlk] at h
  · exact Except.noConfusion h
  case some i =>
    cases hd : i.digest <;> simp only [hd] at h
    · injection h with h'
      exact h'.symm
    · exact Except.noConfusion h

/-- When `find_issue` returns a digest, the register-loop condition agrees
with `issueChanged`. -/
theorem find_issue_ok_cond (issue : Issue) (db : List Issue) (dg : Option String)
    (h : find_issue issue.issue_id db = .ok dg) :
    (dg.isNone || dg != issue.digest) = issueChanged issue db := by
  unfold find_issue at h
  unfold issueChanged
  cases hlk : lookupIssue issue.issue_id db <;> simp only [hlk] at h ⊢
  · injection h with h'
    subst h'
    rfl
  case some l =>
    cases hd : l.digest <;> simp only [hd] at h ⊢
    · exact Except.noConfusion h
    case some d =>
      injection h with h'
      subst h'
      rfl

/-- When `find_issue` returns, its emptiness agrees with the lookup's. -/
theorem find_issue_ok_isNone (iid : Int) (gh : List Issue) (found : Option String)
    (h : find_issue iid gh = .ok found) : found.isNone = (lookupIssue iid gh).isNone := by
  unfold find_issue at h
  cases hlk : lookupIssue iid gh <;> simp only [hlk] at h ⊢
  · injection h with h'
    subst h'
    rfl
  case some l =>
    cases hd : l.digest <;> simp only [hd] at h
    · exact Except.noConfusion h
    case some d =>
      injection h with h'
      subst h'
      rfl

/-- A successful register loop emits exactly one upsert per changed or new
fetched issue, in fetch order. -/
theorem registerOps_ok (rid : Nat) (gh db : List Issue) (ops : List DbOp)
    (h : registerOps rid gh db = .ok ops) :
    ops = (gh.filter (fun i => issueChanged i db)).map (DbOp.registerIssue rid) := by
  induction gh generalizing ops with
  | nil =>
    injection h with h'
    subst h'
    rfl
  | cons issue rest ih =>
    unfold registerOps at h
    cases hf : find_issue issue.issue_id db <;> simp only [hf] at h
    · exact Except.noConfusion h
    case ok dg =>
      cases hr : registerOps rid rest db <;> simp only [hr] at h
      · exact Except.noConfusion h
      case ok ops' =>
        rw [find_issue_ok_cond issue db dg hf] at h
        cases hc : issueChanged issue db
        · rw [hc, if_neg Bool.false_ne_true] at h
          injection h with h'
          subst h'
          simp only [List.filter_cons, hc, Bool.false_eq_true, if_false]
          exact ih ops' hr
        · rw [hc, if_pos rfl] at h
          injection h with h'
          subst h'
          simp only [List.filter_cons, hc, if_true, List.map_cons]
          rw [ih ops' hr]

/-- A successful unregister loop emits exactly one delete per local issue
with no fetched counterpart, in local order. -/
theorem unregisterOps_ok (gh db : List Issue) (ops : List DbOp)
    (h : unregisterOps gh db = .ok ops) :
    ops = (db.filter (fun l => (lookupIssue l.issue_id gh).isNone)).map
      (fun l => DbOp.unregisterIssue l.issue_id) := by
  induction db generalizing ops with
  | nil =>
    injection h with h'
    subst h'
    rfl
  | cons issue rest ih =>
    unfold unregisterOps at h
    cases hf : find_issue issue.issue_id gh <;> simp only [hf] at h
    · exact Except.noConfusion h
    case ok found =>
      cases hr : unregisterOps gh rest <;> simp only [hr] at h
      · exact Except.noConfusion h
      case ok ops' =>
        rw [find_issue_ok_isNone issue.issue_id gh found hf] at h
        cases hc : (lookupIssue issue.issue_id gh).isNone
        · rw [hc, if_neg Bool.false_ne_true] at h
          injection h with h'
          subst h'
          simp only [List.filter_cons, hc, Bool.false_eq_true, if_false]
          exact ih ops' hr
        · rw [hc, if_pos rfl] at h
          injection h with h'
          subst h'
          simp only [List.filter_cons, hc, if_true, List.map_cons]
          rw [ih ops' hr]

/-- A successful reconciliation is the register phase followed by the
unregister phase. -/
theorem syncIssuesOps_ok_shape (rid : Nat) (gh db : List Issue) (ops : List DbOp)
    (h : syncIssuesOps rid gh db = .ok ops) :
    ops = (gh.filter (fun i => issueChanged i db)).map (DbOp.registerIssue rid) ++
      (db.filter (fun l => (lookupIssue l.issue_id gh).isNone)).map
        (fun l => DbOp.unregisterIssue l.issue_id) := by
  unfold syncIssuesOps at h
  cases hr : registerOps rid gh db <;> simp only [hr] at h
  · exact Except.noConfusion h
  case ok regs =>
    cases hu : unregisterOps gh db <;> simp only [hu] at h
    · exact Except.noConfusion h
    case ok unregs =>
      injection h with h'
      subst h'
      rw [registerOps_ok rid gh db regs hr, unregisterOps_ok gh db unregs hu]

/-- Looking up in a cons: the head wins when its identifier matches. -/
theorem lookupIssue_cons (j : Int) (x : Issue) (rest : List Issue) :
    lookupIssue j (x :: rest) = if x.issue_id = j then some x else lookupIssue j rest := by
  unfold lookupIssue
  by_cases hx : x.issue_id = j
  · rw [List.find?_cons_of_pos _ (by simp [hx]), if_pos hx]
  · rw [List.find?_cons_of_neg _ (by simp [hx]), if_neg hx]

/-- A lookup fails exactly when no element carries the identifier. -/
theorem lookupIssue_eq_none_iff (j : Int) (l : List Issue) :
    lookupIssue j l = none ↔ ∀ x ∈ l, x.issue_id ≠ j := by
  unfold lookupIssue
  rw [List.find?_eq_none]
  simp

/-- A successful lookup returns a member carrying the identifier. -/
theorem lookupIssue_some (j : Int) (l : List Issue) (x : Issue)
    (h : lookupIssue j l = some x) : x ∈ l ∧ x.issue_id = j := by
  unfold lookupIssue at h
  refine ⟨List.mem_of_find?_eq_some h, ?_⟩
  have := List.find?_some h
  simpa using this

/-- With pairwise-distinct identifiers, looking up a member's identifier
returns that member. -/
theorem lookupIssue_self_of_nodup (l : List Issue) (x : Issue)
    (hnd : (l.map Issue.issue_id).Nodup) (hx : x ∈ l) :
    lookupIssue x.issue_id l = some x := by
  induction l with
  | nil => exact absurd hx (List.not_mem_nil x)
  | cons y rest ih =>
    rw [List.map_cons, List.nodup_cons] at hnd
    rw [lookupIssue_cons]
    rcases List.mem_cons.mp hx with rfl | hxr
    · rw [if_pos rfl]
    · have hy : y.issue_id ≠ x.issue_id := by
        intro he
        exact hnd.1 (he ▸ List.mem_map_of_mem Issue.issue_id hxr)
      rw [if_neg hy]
      exact ih hnd.2 hxr

/-- With pairwise-distinct identifiers, two members sharing an identifier are
equal. -/
theorem eq_of_mem_nodup_id (l : List Issue) (x y : Issue)
    (hnd : (l.map Issue.issue_id).Nodup) (hx : x ∈ l) (hy : y ∈ l)
    (hid : x.issue_id = y.issue_id) : x = y := by
  have h1 := lookupIssue_self_of_nodup l x hnd hx
  have h2 := lookupIssue_self_of_nodup l y hnd hy
  rw [hid] at h1
  rw [h1] at h2
  exact Option.some_injective _ h2

/-- Looking up after an upsert: the upserted issue shadows its identifier and
nothing else changes. -/
theorem lookupIssue_upsert (s : List Issue) (i : Issue) (j : Int) :
    lookupIssue j (upsertIssue s i) = if i.issue_id = j then some i else lookupIssue j s := by
  induction s with
  | nil =>
    unfold upsertIssue
    rw [lookupIssue_cons]
  | cons x rest ih =>
    unfold upsertIssue
    cases hbx : x.issue_id == i.issue_id
    · simp only [Bool.false_eq_true, if_false]
      rw [lookupIssue_cons, lookupIssue_cons, ih]
      have hxi : x.issue_id ≠ i.issue_id := by simpa using hbx
      by_cases hij : i.issue_id = j
      · rw [if_pos hij, if_neg (by rw [← hij]; exact hxi), if_pos hij]
      · rw [if_neg hij, if_neg hij]
    · simp only [if_true]
      have hxi : x.issue_id = i.issue_id := by simpa using hbx
      rw [lookupIssue_cons, lookupIssue_cons]
      by_cases hij : i.issue_id = j
      · rw [if_pos hij, if_pos hij]
      · rw [if_neg hij, if_neg hij, if_neg (hxi ▸ hij)]

/-- Looking up after a delete: the deleted identifier is gone and nothing
else changes. -/
theorem lookupIssue_delete (s : List Issue) (iid : Int) (j : Int) :
    lookupIssue j (deleteIssue iid s) = if iid = j then none else lookupIssue j s := by
  induction s with
  | nil =>
    unfold deleteIssue
    simp only [List.filter_nil]
    by_cases hij : iid = j
    · rw [if_pos hij]
      rfl
    · rw [if_neg hij]
  | cons x rest ih =>
    unfold deleteIssue at ih ⊢
    rw [List.filter_cons]
    cases hbx : x.issue_id == iid
    · simp only [hbx, Bool.not_false, if_true]
      rw [lookupIssue_cons, lookupIssue_cons, ih]
      have hxi : x.issue_id ≠ iid := by simpa using hbx
      by_cases hij : iid = j
      · rw [if_pos hij, if_neg (by omega), if_pos hij]
      · rw [if_neg hij, if_neg hij]
    · simp only [hbx, Bool.not_true, Bool.false_eq_true, if_false]
      rw [ih]
      have hxi : x.issue_id = iid := by simpa using hbx
      by_cases hij : iid = j
      · rw [if_pos hij, if_pos hij]
      · rw [if_neg hij, if_neg hij, lookupIssue_cons, if_neg (by omega)]

/-- Pairwise-distinct identifiers survive filtering. -/
theorem nodup_ids_filter (l : List Issue) (p : Issue → Bool)
    (h : (l.map Issue.issue_id).Nodup) : ((l.filter p).map Issue.issue_id).Nodup :=
  List.Nodup.sublist (List.Sublist.map Issue.issue_id (List.filter_sublist l)) h

/-- Folding upserts of issues with pairwise-distinct identifiers: a lookup
prefers the upserted issues and falls back to the previous table. -/
theorem foldl_upsert_lookup (regs : List Issue) (s : List Issue) (j : Int)
    (hnd : (regs.map Issue.issue_id).Nodup) :
    lookupIssue j (regs.foldl upsertIssue s) =
      (match lookupIssue j regs with
       | some x => some x
       | none => lookupIssue j s) := by
  induction regs generalizing s with
  | nil => rfl
  | cons r rest ih =>
    rw [List.map_cons, List.nodup_cons] at hnd
    rw [List.foldl_cons, ih (upsertIssue s r) hnd.2, lookupIssue_upsert, lookupIssue_cons]
    by_cases hrj : r.issue_id = j
    · have hnone : lookupIssue j rest = none := by
        rw [lookupIssue_eq_none_iff]
        intro x hx he
        apply hnd.1
        rw [← hrj] at he
        exact he ▸ List.mem_map_of_mem Issue.issue_id hx
      rw [hnone, if_pos hrj, if_pos hrj]
    · rw [if_neg hrj, if_neg hrj]

/-- Folding deletes: a lookup fails for every deleted identifier and is
otherwise unchanged. -/
theorem foldl_delete_lookup (dels : List Issue) (s : List Issue) (j : Int) :
    lookupIssue j (dels.foldl (fun acc l => deleteIssue l.issue_id acc) s) =
      if dels.any (fun l => l.issue_id == j) then none else lookupIssue j s := by
  induction dels generalizing s with
  | nil => rfl
  | cons d rest ih =>
    rw [List.foldl_cons, ih, List.any_cons]
    by_cases hdj : d.issue_id = j
    · have hb : (d.issue_id == j) = true := by simp [hdj]
      rw [hb, Bool.true_or, if_pos rfl, lookupIssue_delete, if_pos hdj, ite_self]
    · have hb : (d.issue_id == j) = false := by simp [hdj]
      rw [hb, Bool.false_or, lookupIssue_delete, if_neg hdj]

/-- Applying a concatenation of write sequences is sequential application. -/
theorem applyIssueOps_append (s : List Issue) (a b : List DbOp) :
    applyIssueOps s (a ++ b) = applyIssueOps (applyIssueOps s a) b := by
  unfold applyIssueOps
  rw [List.foldl_append]

/-- Applying a sequence of upsert writes folds the upserts. -/
theorem applyIssueOps_registers (s : List Issue) (rid : Nat) (regs : List Issue) :
    applyIssueOps s (regs.map (DbOp.registerIssue rid)) = regs.foldl upsertIssue s := by
  unfold applyIssueOps
  rw [List.foldl_map]
  rfl

/-- Applying a sequence of delete writes folds the deletes. -/
theorem applyIssueOps_unregisters (s : List Issue) (dels : List Issue) :
    applyIssueOps s (dels.map (fun l => DbOp.unregisterIssue l.issue_id)) =
      dels.foldl (fun acc l => deleteIssue l.issue_id acc) s := by
  unfold applyIssueOps
  rw [List.foldl_map]
  rfl

/-- C1 (amended): for pairwise-distinct remote and local identifier sets, a
successful run of the issue reconciliation issues exactly the claimed writes —
an upsert for every fetched issue that is new or whose digest differs from the
matching local issue's stored digest, a delete for every local issue whose
identifier appears in no fetched issue, and no write for an issue present in
both with equal digests — and afterwards the local issue table equals the
fetched collection keyed by identifier up to non-digested fields: the
identifier sets coincide, every entry's digest equals the fetched issue's
digest, and every changed or new entry is the fetched issue itself, while an
unchanged entry keeps its stored row. -/
theorem sync_issues_reconciliation (rid : Nat) (gh db : List Issue) (ops : List DbOp)
    (hgh : (gh.map Issue.issue_id).Nodup)
    (h : syncIssuesOps rid gh db = .ok ops) : ReconcileSpec rid gh db ops := by
  have hshape := syncIssuesOps_ok_shape rid gh db ops h
  have hndghF := nodup_ids_filter gh (fun i => issueChanged i db) hgh
  have hfinal : ∀ j : Int, lookupIssue j (applyIssueOps db ops) =
      if (db.filter (fun l => (lookupIssue l.issue_id gh).isNone)).any
          (fun l => l.issue_id == j) then none
      else (match lookupIssue j (gh.filter (fun i => issueChanged i db)) with
            | some x => some x
            | none => lookupIssue j db) := by
    intro j
    rw [hshape, applyIssueOps_append, applyIssueOps_registers, applyIssueOps_unregisters,
      foldl_delete_lookup, foldl_upsert_lookup _ _ _ hndghF]
  have hpart3 : ∀ i ∈ gh,
      ∃ f, lookupIssue i.issue_id (applyIssueOps db ops) = some f ∧
        f.issue_id = i.issue_id ∧ f.digest = i.digest ∧
        (issueChanged i db = true → f = i) := by
    intro i hi
    have hany : (db.filter (fun l => (lookupIssue l.issue_id gh).isNone)).any
        (fun l => l.issue_id == i.issue_id) = false := by
      rw [Bool.eq_false_iff]
      intro hcontra
      rw [List.any_eq_true] at hcontra
      obtain ⟨l, hl, hbeq⟩ := hcontra
      rw [List.mem_filter] at hl
      have hlid : l.issue_id = i.issue_id := by simpa using hbeq
      have hnone : lookupIssue i.issue_id gh = none := by
        rw [← hlid]
        exact Option.isNone_iff_eq_none.mp hl.2
      exact ((lookupIssue_eq_none_iff _ _).mp hnone) i hi rfl
    have hval := hfinal i.issue_id
    rw [hany, if_neg Bool.false_ne_true] at hval
    by_cases hc : issueChanged i db = true
    · have higF : i ∈ gh.filter (fun i => issueChanged i db) := by
        rw [List.mem_filter]
        exact ⟨hi, hc⟩
      have hsome := lookupIssue_self_of_nodup _ i hndghF higF
      rw [hsome] at hval
      exact ⟨i, hval, rfl, rfl, fun _ => rfl⟩
    · have hgFnone : lookupIssue i.issue_id (gh.filter (fun i => issueChanged i db)) = none := by
        rw [lookupIssue_eq_none_iff]
        intro x hx he
        rw [List.mem_filter] at hx
        have hxi : x = i := eq_of_mem_nodup_id gh x i hgh hx.1 hi he
        rw [hxi] at hx
        exact hc hx.2
      rw [hgFnone] at hval
      have hcf : issueChanged i db = false := Bool.eq_false_iff.mpr hc
      unfold issueChanged at hcf
      cases hlk : lookupIssue i.issue_id db <;> simp only [hlk] at hcf
      · exact absurd hcf (by decide)
      · rename_i l
        have hld : l.digest = i.digest := by simpa using hcf
        have hlid : l.issue_id = i.issue_id := (lookupIssue_some _ _ _ hlk).2
        exact ⟨l, hval.trans hlk, hlid, hld, fun ht => absurd ht hc⟩
  refine ⟨hshape, ?_, hpart3⟩
  intro iid
  constructor
  · intro hnone
    cases hx : lookupIssue iid gh
    · rfl
    case some x =>
      obtain ⟨hxmem, hxid⟩ := lookupIssue_some iid gh x hx
      obtain ⟨f, hf, hfi, hfd, hfe⟩ := hpart3 x hxmem
      rw [hxid] at hf
      rw [hf] at hnone
      exact Option.noConfusion hnone
  · intro hnone
    rw [hfinal iid]
    by_cases hany : (db.filter (fun l => (lookupIssue l.issue_id gh).isNone)).any
        (fun l => l.issue_id == iid) = true
    · rw [if_pos hany]
    · have hanyf := Bool.eq_false_iff.mpr hany
      rw [hanyf, if_neg Bool.false_ne_true]
      have hgFnone : lookupIssue iid (gh.filter (fun i => issueChanged i db)) = none := by
        rw [lookupIssue_eq_none_iff]
        intro x hx he
        rw [List.mem_filter] at hx
        exact ((lookupIssue_eq_none_iff iid gh).mp hnone) x hx.1 he
      rw [hgFnone]
      cases hlk : lookupIssue iid db
      · rfl
      · rename_i l
        obtain ⟨hlmem, hlid⟩ := lookupIssue_some iid db l hlk
        have hlin : l ∈ db.filter (fun l => (lookupIssue l.issue_id gh).isNone) := by
          rw [List.mem_filter]
          refine ⟨hlmem, ?_⟩
          rw [hlid, hnone]
          rfl
        exact absurd (List.any_eq_true.mpr ⟨l, hlin, by simp [hlid]⟩) hany

/-- C1 (witness): a concrete reconciliation with one new, one changed, one
unchanged-side and one vanished issue produces exactly the claimed writes and
final table. -/
theorem sync_issues_reconciliation_witness :
    (([issueNew, issueRemoteChanged].map Issue.issue_id).Nodup) ∧
    syncIssuesOps 42 [issueNew, issueRemoteChanged] [issueLocalStale, issueGone] =
      .ok [DbOp.registerIssue 42 issueNew, DbOp.registerIssue 42 issueRemoteChanged,
        DbOp.unregisterIssue 9] ∧
    ReconcileSpec 42 [issueNew, issueRemoteChanged] [issueLocalStale, issueGone]
      [DbOp.registerIssue 42 issueNew, DbOp.registerIssue 42 issueRemoteChanged,
        DbOp.unregisterIssue 9] :=
  ⟨by decide, by decide,
   sync_issues_reconciliation 42 [issueNew, issueRemoteChanged] [issueLocalStale, issueGone]
     [DbOp.registerIssue 42 issueNew, DbOp.registerIssue 42 issueRemoteChanged,
       DbOp.unregisterIssue 9] (by decide) (by decide)⟩

set_option maxRecDepth 1000000 in
/-- C1 (counterexample): the claim's closing clause says that after a
successful reconciliation the local set equals the remote set keyed by
identifier. Take a remote issue whose title and labels — the digested
fields — are unchanged but whose URL moved: the digests match, so (as the
claim itself requires) no write is issued, and the local table keeps the old
row, whose URL differs from the remote issue's. The final local set therefore
does not equal the remote set keyed by identifier. -/
theorem sync_issues_counterexample :
    syncIssuesOps 42 [issueRemoteRenamed] [issueLocalRenamed] = .ok [] ∧
    applyIssueOps [issueLocalRenamed] [] = [issueLocalRenamed] ∧
    lookupIssue 3 [issueRemoteRenamed] = some issueRemoteRenamed ∧
    lookupIssue 3 (applyIssueOps [issueLocalRenamed] []) ≠ some issueRemoteRenamed := by
  refine ⟨by decide, rfl, rfl, by decide⟩

/-- A successful `Repository::update_gh_data` overwrites the fetched fields,
recomputes the digest from them and reports change as digest inequality
(tracker.rs lines 33-61). -/
theorem update_gh_data_eq (r : Repository) (gh_repo : RepoViewRepository) :
    Repository.update_gh_data r gh_repo =
      .ok (updatedRepo r gh_repo,
        (some (repoDigest (ghTopics gh_repo) (ghLanguages gh_repo)
          (some (toI32 gh_repo.stargazer_count))) != r.digest)) := rfl

/-- The whole sync unit, as one equation: metadata write when the digest
changed, the reconciliation writes, then the timestamp write — or the
reconciliation's panic. -/
theorem track_repository_eq (gh_repo : RepoViewRepository) (db : List Issue) (r : Repository) :
    track_repository (.ok gh_repo) db r =
      (match syncIssuesOps r.repository_id gh_repo.issues_list db with
       | .error m => .panicked m
       | .ok issueOps =>
         .ok ((if (some (repoDigest (ghTopics gh_repo) (ghLanguages gh_repo)
               (some (toI32 gh_repo.stargazer_count))) != r.digest)
             then [DbOp.updateRepoGhData (updatedRepo r gh_repo)] else []) ++
           issueOps ++ [DbOp.updateLastTrackTs r.repository_id])) := rfl

/-- C2: in a sync unit that completes, the repository metadata write happens
if and only if the digest recomputed from the freshly fetched fields (topics,
languages, stars) differs from the previously stored digest — in particular
always when the stored digest was absent, as `some _ ≠ none` — and when the
recomputed digest equals the stored one no metadata write is performed. -/
theorem metadata_write_iff_digest_changed (gh_repo : RepoViewRepository) (db : List Issue)
    (r : Repository) (ops : List DbOp) (h : track_repository (.ok gh_repo) db r = .ok ops) :
    ((∃ r2, DbOp.updateRepoGhData r2 ∈ ops) ↔
      some (repoDigest (ghTopics gh_repo) (ghLanguages gh_repo)
        (some (toI32 gh_repo.stargazer_count))) ≠ r.digest) := by
  rw [track_repository_eq] at h
  cases hs : syncIssuesOps r.repository_id gh_repo.issues_list db <;> simp only [hs] at h
  · exact TrackResult.noConfusion h
  · rename_i issueOps
    injection h with h'
    subst h'
    have hnometa : ∀ r2, DbOp.updateRepoGhData r2 ∉ issueOps := by
      intro r2 hmem
      rw [syncIssuesOps_ok_shape _ _ _ _ hs, List.mem_append] at hmem
      rcases hmem with hm | hm <;> rw [List.mem_map] at hm <;> obtain ⟨x, hx, he⟩ := hm <;>
        exact DbOp.noConfusion he
    cases hcond : (some (repoDigest (ghTopics gh_repo) (ghLanguages gh_repo)
        (some (toI32 gh_repo.stargazer_count))) != r.digest)
    · have heq : some (repoDigest (ghTopics gh_repo) (ghLanguages gh_repo)
          (some (toI32 gh_repo.stargazer_count))) = r.digest := by
        simpa using hcond
      rw [if_neg Bool.false_ne_true]
      constructor
      · rintro ⟨r2, hmem⟩
        rw [List.nil_append, List.mem_append] at hmem
        rcases hmem with hm | hm
        · exact absurd hm (hnometa r2)
        · rw [List.mem_singleton] at hm
          exact DbOp.noConfusion hm
      · intro hne
        exact absurd heq hne
    · rw [if_pos rfl]
      constructor
      · intro _
        exact bne_iff_ne.mp hcond
      · intro _
        exact ⟨updatedRepo r gh_repo, by simp⟩

set_option maxRecDepth 1000000 in
/-- C2 (witness): a repository with no stored digest synced against an empty
view: exactly one metadata write is issued. -/
theorem metadata_write_iff_digest_changed_witness :
    track_repository (.ok ghViewEmpty) [] repoFresh =
      .ok [DbOp.updateRepoGhData (updatedRepo repoFresh ghViewEmpty),
        DbOp.updateLastTrackTs 8] ∧
    ((∃ r2, DbOp.updateRepoGhData r2 ∈
        [DbOp.updateRepoGhData (updatedRepo repoFresh ghViewEmpty),
          DbOp.updateLastTrackTs 8]) ↔
      some (repoDigest (ghTopics ghViewEmpty) (ghLanguages ghViewEmpty)
        (some (toI32 ghViewEmpty.stargazer_count))) ≠ repoFresh.digest) :=
  ⟨by decide,
   metadata_write_iff_digest_changed ghViewEmpty [] repoFresh
     [DbOp.updateRepoGhData (updatedRepo repoFresh ghViewEmpty),
       DbOp.updateLastTrackTs 8] (by decide)⟩

/-- C4 (amended): a remote issue whose matching local issue (same
identifier) has no stored digest does not force an upsert: it makes
`find_issue`'s `expect("to be present")` fire, aborting the whole
reconciliation with the panic (modelled as the error value). The
always-changed forced-write path applies only to a remote issue with no
matching local row at all, or whose digest differs from a present local
digest. -/
theorem missing_local_digest_panics (rid : Nat) (gh db : List Issue) (i l : Issue)
    (hi : i ∈ gh) (hl : lookupIssue i.issue_id db = some l) (hld : l.digest = none) :
    syncIssuesOps rid gh db = .error "to be present" := by
  have hbad : find_issue i.issue_id db = .error "to be present" := by
    unfold find_issue
    simp only [hl, hld]
  have hreg : ∀ gh', i ∈ gh' → registerOps rid gh' db = .error "to be present" := by
    intro gh'
    induction gh' with
    | nil =>
      intro hmem
      exact absurd hmem (List.not_mem_nil i)
    | cons x rest ih =>
      intro hmem
      unfold registerOps
      cases hf : find_issue x.issue_id db
      · simp only [hf]
        rw [find_issue_error_msg _ _ _ hf]
      · rcases List.mem_cons.mp hmem with rfl | hir
        · rw [hbad] at hf
          exact Except.noConfusion hf
        · simp only [hf, ih hir]
  unfold syncIssuesOps
  simp only [hreg gh hi]

/-- C4 (counterexample): the claim says that for a remote issue whose
matching local issue has no stored digest the reconciliation treats it as
changed, upserts it, and never aborts or panics. On the code, `find_issue`
maps the found local issue through `digest.clone().expect("to be present")`,
so this very input makes the unit panic instead of writing. -/
theorem missing_local_digest_counterexample :
    issueNoDigestLocal.digest = none ∧
    issueRemoteFour.issue_id = issueNoDigestLocal.issue_id ∧
    syncIssuesOps 42 [issueRemoteFour] [issueNoDigestLocal] = .error "to be present" :=
  ⟨rfl, rfl, rfl⟩

/-- C4 (witness): the amended statement at the concrete input. -/
theorem missing_local_digest_panics_witness :
    issueRemoteFour ∈ [issueRemoteFour] ∧
    lookupIssue issueRemoteFour.issue_id [issueNoDigestLocal] = some issueNoDigestLocal ∧
    issueNoDigestLocal.digest = none ∧
    syncIssuesOps 42 [issueRemoteFour] [issueNoDigestLocal] = .error "to be present" :=
  ⟨List.mem_cons_self issueRemoteFour [], rfl, rfl,
   missing_local_digest_panics 42 [issueRemoteFour] [issueNoDigestLocal] issueRemoteFour
     issueNoDigestLocal (List.mem_cons_self issueRemoteFour []) rfl rfl⟩

/-- C8: every sync unit that completes its fetch, metadata-update and
issue-reconciliation steps without error ends with — and only with — the
last-tracked-timestamp write: it is the final operation of the unit's write
sequence, and (in the spec-modelled datastore semantics) it changes only the
repository's last-tracked timestamp, leaving the metadata row and the issue
table untouched. -/
theorem last_track_ts_always_updated (gh_repo : RepoViewRepository) (db : List Issue)
    (r : Repository) (ops : List DbOp) (h : track_repository (.ok gh_repo) db r = .ok ops) :
    ops.getLast? = some (DbOp.updateLastTrackTs r.repository_id) ∧
    ∀ (now : Nat) (s : RepoRecord),
      (applyDbOp now s (DbOp.updateLastTrackTs r.repository_id)).repo = s.repo ∧
      (applyDbOp now s (DbOp.updateLastTrackTs r.repository_id)).issues = s.issues ∧
      (applyDbOp now s (DbOp.updateLastTrackTs r.repository_id)).last_track_ts = some now := by
  refine ⟨?_, fun now s => ⟨rfl, rfl, rfl⟩⟩
  rw [track_repository_eq] at h
  cases hs : syncIssuesOps r.repository_id gh_repo.issues_list db <;> simp only [hs] at h
  · exact TrackResult.noConfusion h
  · rename_i issueOps
    injection h with h'
    subst h'
    exact List.getLast?_concat _

set_option maxRecDepth 1000000 in
/-- C8 (witness): a sync that changes nothing — stored digest already equal
to the fetched fields' digest, no issues on either side — still performs the
timestamp write, and nothing else. -/
theorem last_track_ts_always_updated_witness :
    track_repository (.ok ghViewEmpty) [] repoSeven = .ok [DbOp.updateLastTrackTs 7] ∧
    ([DbOp.updateLastTrackTs 7].getLast? = some (DbOp.updateLastTrackTs 7) ∧
     ∀ (now : Nat) (s : RepoRecord),
       (applyDbOp now s (DbOp.updateLastTrackTs 7)).repo = s.repo ∧
       (applyDbOp now s (DbOp.updateLastTrackTs 7)).issues = s.issues ∧
       (applyDbOp now s (DbOp.updateLastTrackTs 7)).last_track_ts = some now) :=
  ⟨by decide,
   last_track_ts_always_updated ghViewEmpty [] repoSeven [DbOp.updateLastTrackTs 7] (by decide)⟩

/-- C9: after every successful metadata update the stored digest is present
(`None` can only be observed before the first successful fetch) and equals
exactly the digest computed from the repository's (topics, languages, stars)
tuple as written. -/
theorem digest_reflects_fields_after_update (r : Repository) (gh_repo : RepoViewRepository)
    (r2 : Repository) (changed : Bool)
    (h : Repository.update_gh_data r gh_repo = .ok (r2, changed)) :
    r2.digest = some (repoDigest r2.topics r2.languages r2.stars) ∧ r2.digest ≠ none := by
  rw [update_gh_data_eq] at h
  injection h with h'
  have hr2 : r2 = updatedRepo r gh_repo := (congrArg Prod.fst h').symm
  subst hr2
  exact ⟨rfl, by simp [updatedRepo]⟩

set_option maxRecDepth 1000000 in
/-- C9 (witness): the invariant at a concrete first fetch. -/
theorem digest_reflects_fields_after_update_witness :
    Repository.update_gh_data repoFresh ghViewEmpty =
      .ok (updatedRepo repoFresh ghViewEmpty, true) ∧
    ((updatedRepo repoFresh ghViewEmpty).digest =
      some (repoDigest (updatedRepo repoFresh ghViewEmpty).topics
        (updatedRepo repoFresh ghViewEmpty).languages
        (updatedRepo repoFresh ghViewEmpty).stars) ∧
     (updatedRepo repoFresh ghViewEmpty).digest ≠ none) :=
  ⟨by decide,
   digest_reflects_fields_after_update repoFresh ghViewEmpty
     (updatedRepo repoFresh ghViewEmpty) true (by decide)⟩

/-- C10 (witness): `cfgB` differs from `cfgA` by carrying an extra
`tracker.timeout` key; the run is unaffected. -/
theorem deadline_fixed_at_300_witness :
    cfgA "creds.githubTokens" = cfgB "creds.githubTokens" ∧
    cfgA "tracker.concurrency" = cfgB "tracker.concurrency" ∧
    run cfgA [unitGamma] [] = run cfgB [unitGamma] [] :=
  ⟨by decide, by decide,
   deadline_fixed_at_300.2 cfgA cfgB [unitGamma] [] (by decide) (by decide)⟩

end Clotributor
